import Mathlib

/-!
Verification of the provpy core model (src/provpy/model/core.py).

The Python source is shallowly embedded: Python dictionaries are modelled as
association lists iterated in insertion order, Python `None` as `Option.none`,
exceptions as `Except String`, and Python 2 dynamic values as the inductive
type `PyValue` below.  Python 2 specifics that the source relies on are kept:
`bool` is a subclass of `int` (so `isinstance(True, int)` holds), `x == None`
is `True` exactly when `x` is `None`, and `str(True)` is `"True"`.
-/

namespace Prov

/-- Qualified name, embedding class PROVQname (core.py lines 56 to 106).
The constructor arguments of PROVQname are `name`, an optional namespace
short form `pfx`, an optional `namespacename` uri and an optional
`localname`. -/
structure PQname where
  name : String
  pfx : Option String
  namespacename : Option String
  localname : Option String
deriving DecidableEq, Repr

/-- A Python dictionary from short namespace forms to uris, modelled as an
association list in iteration order.  Values are `Option String` because the
source can store `None` as a value (a PROVQname built with no namespace). -/
abbrev NsDict : Type := List (String × Option String)

/-- Python `dict` lookup: first entry with the given key. -/
def dlookup (d : NsDict) (k : String) : Option (Option String) :=
  (d.find? (fun kv => kv.1 == k)).map (fun kv => kv.2)

/-- Python `dict` assignment `d[k] = v`: overwrite in place when the key is
present, append otherwise. -/
def dinsert (d : NsDict) (k : String) (v : Option String) : NsDict :=
  if d.any (fun kv => kv.1 == k) then
    d.map (fun kv => if kv.1 == k then (k, v) else kv)
  else
    d ++ [(k, v)]

/-- Keys of a dictionary. -/
def dkeys (d : NsDict) : List String :=
  d.map (fun kv => kv.1)

/-- The loop of PROVQname.qname (core.py lines 87 to 93): iterate over the
dictionary, overwriting the result on every entry whose value equals the
namespacename of the qualified name.  For a non default key the update
happens only when the localname is present; for the key "default" the
result becomes the localname, present or not. -/
def qnameLoop (q : PQname) : NsDict → Option String → Option String
  | [], rt => rt
  | kv :: rest, rt =>
    let rt' :=
      if q.namespacename = kv.2 then
        if kv.1 ≠ "default" then
          match q.localname with
          | some l => some (kv.1 ++ ":" ++ l)
          | none => rt
        else q.localname
      else rt
    qnameLoop q rest rt'

/-- PROVQname.qname (core.py lines 82 to 97).  After the loop, when the
namespacename is not among the dictionary values and a preferred short form
is set, the source joins it with the localname; joining with a `None`
localname raises a TypeError, embedded as an error result. -/
def qnameFull (q : PQname) (nsdict : NsDict) : Except String (Option String) :=
  let rt := qnameLoop q nsdict (some q.name)
  if nsdict.any (fun kv => kv.2 == q.namespacename) then .ok rt
  else
    match q.pfx with
    | some p =>
      match q.localname with
      | some l => .ok (some (p ++ ":" ++ l))
      | none => .error "TypeError: sequence item 1: expected string, NoneType found"
    | none => .ok rt

/-- The last entry of the dictionary, in iteration order, whose value equals
the namespacename of the qualified name.  This is the entry whose update
survives the loop of PROVQname.qname. -/
def lastMatch (q : PQname) : NsDict → Option (String × Option String)
  | [] => none
  | kv :: rest =>
    match lastMatch q rest with
    | some r => some r
    | none => if q.namespacename = kv.2 then some kv else none

theorem qnameLoop_eq_lastMatch (q : PQname) (l : String) (h : q.localname = some l) :
    ∀ (d : NsDict) (rt : Option String),
      qnameLoop q d rt =
        match lastMatch q d with
        | none => rt
        | some kv => if kv.1 = "default" then some l else some (kv.1 ++ ":" ++ l) := by
  intro d
  induction d with
  | nil => intro rt; rfl
  | cons kv rest ih =>
    intro rt
    show qnameLoop q rest _ = _
    rw [ih]
    by_cases hm : q.namespacename = kv.2
    · simp only [lastMatch, hm, if_pos]
      cases hl : lastMatch q rest with
      | some r => simp
      | none =>
        simp only []
        by_cases hd : kv.1 = "default"
        · simp [hd, h]
        · simp [hd, h]
    · simp only [lastMatch, hm, if_neg]
      cases hl : lastMatch q rest with
      | some r => simp
      | none => simp [hm]

theorem any_eq_lastMatch_isSome (q : PQname) :
    ∀ d : NsDict, (d.any (fun kv => kv.2 == q.namespacename)) = (lastMatch q d).isSome := by
  intro d
  induction d with
  | nil => rfl
  | cons kv rest ih =>
    rw [List.any_cons, ih]
    cases hl : lastMatch q rest with
    | some r => simp [lastMatch, hl]
    | none =>
      simp only [lastMatch, hl, Bool.or_false]
      by_cases hm : q.namespacename = kv.2
      · simp [hm]
      · rw [if_neg hm]
        simp [Ne.symm hm, hm]

/-- The implicit namespaces of every bundle (core.py lines 119 to 120 and
688 to 689). -/
def xsdURI : String := "http://www.w3.org/2001/XMLSchema-datatypes#"

def provURI : String := "http://www.w3.org/ns/prov-dm/"

/-- PROVNamespace item access (core.py line 115 to 116): minting a qualified
name from a namespace and a local part. -/
def nsGetItem (p uri l : String) : PQname :=
  ⟨uri ++ l, some p, some uri, some l⟩

/-- xsd[l] for the xsd namespace object of core.py line 119. -/
def xsdQ (l : String) : PQname := nsGetItem "xsd" xsdURI l

/-- prov[l] for the prov namespace object of core.py line 120. -/
def provQ (l : String) : PQname := nsGetItem "prov" provURI l

/-- The namespace dictionary holding only the two implicit namespaces, as
seen by a record converted against Bundle._implicitnamespace. -/
def stdNs : NsDict := [("prov", some provURI), ("xsd", some xsdURI)]

mutual
/-- A Python 2 runtime value as used for record attribute values.  Floats
and datetimes are carried by their str() image, the only operation the
source applies to them. -/
inductive PyValue where
  | PyStr (s : String)
  | PyBool (b : Bool)
  | PyInt (n : Int)
  | PyFloat (srepr : String)
  | PyDatetime (srepr : String)
  | PyQname (q : PQname)
  | PyLiteral (value : PyValue) (datatype : PyValue)
  | PyList (items : PyValueList)
  | PyNone
deriving Repr, DecidableEq

/-- A Python list of runtime values. -/
inductive PyValueList where
  | nil
  | cons (head : PyValue) (tail : PyValueList)
deriving Repr, DecidableEq
end

/-- isinstance(v, str).  Python 2 str: unicode and bool are not str. -/
def isinstanceStr : PyValue → Bool
  | .PyStr _ => true
  | _ => false

/-- isinstance(v, bool). -/
def isinstanceBool : PyValue → Bool
  | .PyBool _ => true
  | _ => false

/-- isinstance(v, int).  In Python, bool is a subclass of int, so True and
False satisfy this check as well. -/
def isinstanceInt : PyValue → Bool
  | .PyInt _ => true
  | .PyBool _ => true
  | _ => false

/-- isinstance(v, float). -/
def isinstanceFloat : PyValue → Bool
  | .PyFloat _ => true
  | _ => false

/-- isinstance(v, datetime.datetime). -/
def isinstanceDatetime : PyValue → Bool
  | .PyDatetime _ => true
  | _ => false

/-- isinstance(v, list). -/
def isinstanceList : PyValue → Bool
  | .PyList _ => true
  | _ => false

/-- Python str() on the values the source ever stringifies. -/
def pyStr : PyValue → String
  | .PyStr s => s
  | .PyBool true => "True"
  | .PyBool false => "False"
  | .PyInt n => Int.repr n
  | .PyFloat r => r
  | .PyDatetime r => r
  | .PyQname q => q.name
  | .PyLiteral _ _ => "Not supported yet"
  | .PyList _ => "list"
  | .PyNone => "None"

/-- Record._get_type_JSON (core.py lines 159 to 172): a sequence of
independent if statements, each overwriting the datatype.  Because bool is
a subclass of int, a boolean passes the int check after the bool check has
set the datatype to None, leaving xsd:integer as its datatype. -/
def getTypeJSON (v : PyValue) : Option PQname :=
  let d0 : Option PQname := none
  let d1 := if isinstanceStr v || isinstanceBool v then none else d0
  let d2 := if isinstanceFloat v then some (xsdQ "float") else d1
  let d3 := if isinstanceDatetime v then some (xsdQ "dateTime") else d2
  let d4 := if isinstanceInt v then some (xsdQ "integer") else d3
  let d5 := if isinstanceList v then some (provQ "array") else d4
  d5

/-- An optional string as a Python value. -/
def optToPy : Option String → PyValue
  | some s => .PyStr s
  | none => .PyNone

/-- PROVQname.to_provJSON (core.py lines 99 to 106). -/
def qnameJSON (ns : NsDict) (q : PQname) : Except String PyValue := do
  let qn ← qnameFull q ns
  if some q.name = qn then
    .ok (.PyList (.cons (optToPy qn) (.cons (.PyStr "xsd:anyURI") .nil)))
  else
    .ok (.PyList (.cons (optToPy qn) (.cons (.PyStr "xsd:QName") .nil)))

/-- PROVLiteral.to_provJSON (core.py lines 665 to 676): the value and the
datatype each pass through qname resolution when they are qualified names
and are emitted unchanged otherwise. -/
def literalJSON (ns : NsDict) (v d : PyValue) : Except String PyValue := do
  let x ← match v with
    | .PyQname q => do
        let r ← qnameFull q ns
        pure (optToPy r)
    | other => pure other
  let y ← match d with
    | .PyQname q => do
        let r ← qnameFull q ns
        pure (optToPy r)
    | other => pure other
  .ok (.PyList (.cons x (.cons y .nil)))

/-- Whether some element of the list is itself a list (the islist flag of
core.py lines 188 to 191). -/
def hasListElem : PyValueList → Bool
  | .nil => false
  | .cons h t => isinstanceList h || hasListElem t

mutual
/-- Record._convert_value_JSON (core.py lines 174 to 195).  Literals and
qualified names delegate to their to_provJSON; otherwise the datatype is
computed and a typed pair emitted, except that for an array whose elements
are all non lists the converted elements are wrapped with the prov:array
tag, while an array with a nested list is returned unchanged (the converted
elements are computed and then discarded, so conversion errors still
propagate). -/
def convertValue (ns : NsDict) : PyValue → Except String PyValue
  | .PyLiteral v d => literalJSON ns v d
  | .PyQname q => qnameJSON ns q
  | v =>
    match getTypeJSON v with
    | none => .ok v
    | some dt =>
      if dt.name = (provQ "array").name then
        match v with
        | .PyList items => do
            let newvalue ← convertList ns items
            if hasListElem items then .ok (.PyList items)
            else do
              let qn ← qnameFull dt ns
              .ok (.PyList (.cons (.PyList newvalue) (.cons (optToPy qn) .nil)))
        | other => .ok other
      else do
        let qn ← qnameFull dt ns
        .ok (.PyList (.cons (.PyStr (pyStr v)) (.cons (optToPy qn) .nil)))

/-- The element loop of the array branch of Record._convert_value_JSON. -/
def convertList (ns : NsDict) : PyValueList → Except String PyValueList
  | .nil => .ok .nil
  | .cons h t => do
      let h' ← convertValue ns h
      let t' ← convertList ns t
      .ok (.cons h' t')
end

/-- The mutable state of PROVContainer while building the namespace table:
the dictionary _nsdict and the counter _auto_ns_key. -/
structure NsSt where
  nsdict : NsDict
  autoNsKey : Nat
deriving DecidableEq, Repr

/-- The synthetic short form with integer suffix n. -/
def nsStr (n : Nat) : String := "ns" ++ Nat.repr n

/-- PROVContainer._generate_prefix (core.py lines 1048 to 1054): try the
candidate for the current counter value, increment, and retry while the
candidate is already a key.  The source recursion terminates because the
dictionary is finite; the embedding carries fuel, which the theorems show
is never exhausted on their inputs. -/
def genPfxAux (keys : List String) : Nat → Nat → String × Nat
  | key, 0 => (nsStr key, key + 1)
  | key, fuel + 1 =>
    if keys.contains (nsStr key) then genPfxAux keys (key + 1) fuel
    else (nsStr key, key + 1)

/-- The PROVQname branch of PROVContainer._merge_namespace (core.py lines
1031 to 1039).  A qualified name with a preferred short form either finds
it bound to the same uri (no-op), or bound to a different uri, in which
case, unless the incoming uri equals the value bound to "default" (a
KeyError if "default" is absent), a synthetic short form is minted and
bound to the incoming uri; an unbound short form is bound directly unless
the uri itself already occurs among the keys. -/
def mergeQname (st : NsSt) (q : PQname) : Except String NsSt :=
  match q.pfx with
  | none => .ok st
  | some p =>
    match dlookup st.nsdict p with
    | some v =>
      if q.namespacename = v then .ok st
      else
        match dlookup st.nsdict "default" with
        | none => .error "KeyError: default"
        | some d =>
          if d = q.namespacename then .ok st
          else
            let pk := genPfxAux (dkeys st.nsdict) st.autoNsKey (st.nsdict.length + 1)
            .ok ⟨dinsert st.nsdict pk.1 q.namespacename, pk.2⟩
    | none =>
      let uriIsKey := match q.namespacename with
        | some u => (dkeys st.nsdict).contains u
        | none => false
      if uriIsKey then .ok st
      else .ok ⟨dinsert st.nsdict p q.namespacename, st.autoNsKey⟩

/-- A document as seen by the namespace resolver: the default namespace of
the container, the namespace declarations of the root bundle, and the
qualified names the recursive walk of _merge_namespace discovers, in
document order.  The walk itself (bundle recursion with its visited list)
is abstracted by the discovered list; the per name merging step is
mergeQname above, taken verbatim from the source. -/
structure Document where
  defaultnamespace : Option String
  namespacedict : List (String × String)
  qnames : List PQname
deriving Repr

/-- Sequential dictionary update (Python dict.update). -/
def dupdate (d : NsDict) (entries : List (String × Option String)) : NsDict :=
  entries.foldl (fun acc kv => dinsert acc kv.1 kv.2) d

/-- The temporary qualified names minted from a namespace declaration list
by _merge_namespace (core.py lines 1017 to 1019). -/
def tempQnames (decls : List (String × String)) : List PQname :=
  decls.map (fun kv => ⟨kv.2, some kv.1, some kv.2, none⟩)

/-- PROVContainer._create_nsdict (core.py lines 998 to 1011) on a first
encode call: seed with the default namespace when present, update with the
implicit and the declared namespaces, merge every discovered qualified
name, and finally delete every key other than "default" whose value equals
the default namespace. -/
def createNsdict (doc : Document) : Except String NsDict := do
  let ns0 : NsDict := match doc.defaultnamespace with
    | some d => [("default", some d)]
    | none => []
  let ns1 := dupdate ns0 [("prov", some provURI), ("xsd", some xsdURI)]
  let ns2 := dupdate ns1 (doc.namespacedict.map (fun kv => (kv.1, some kv.2)))
  let st ← (tempQnames doc.namespacedict ++ doc.qnames).foldlM mergeQname ⟨ns2, 0⟩
  .ok (st.nsdict.filter
    (fun kv => !(kv.2 == doc.defaultnamespace && !(kv.1 == "default"))))

theorem genPfxAux_spec (keys : List String) :
    ∀ (fuel k : Nat), (∃ j, j < fuel ∧ keys.contains (nsStr (k + j)) = false) →
      ∃ N, genPfxAux keys k fuel = (nsStr N, N + 1) ∧ k ≤ N ∧
        keys.contains (nsStr N) = false ∧
        ∀ m, k ≤ m → m < N → keys.contains (nsStr m) = true := by
  intro fuel
  induction fuel with
  | zero =>
    intro k h
    obtain ⟨j, hj, _⟩ := h
    omega
  | succ fuel ih =>
    intro k h
    by_cases hk : keys.contains (nsStr k) = true
    · obtain ⟨j, hj, hfree⟩ := h
      have hj0 : j ≠ 0 := by
        intro h0
        rw [h0, Nat.add_zero] at hfree
        rw [hfree] at hk
        exact Bool.noConfusion hk
      obtain ⟨N, hres, hle, hNfree, hmin⟩ := ih (k + 1) ⟨j - 1, by omega, by
        have : k + 1 + (j - 1) = k + j := by omega
        rw [this]
        exact hfree⟩
      refine ⟨N, ?_, by omega, hNfree, ?_⟩
      · simp only [genPfxAux, hk, if_pos]
        exact hres
      · intro m hm1 hm2
        rcases Nat.eq_or_lt_of_le hm1 with heq | hlt
        · rw [← heq]; exact hk
        · exact hmin m hlt hm2
    · refine ⟨k, ?_, Nat.le_refl k, by simpa using hk, by omega⟩
      simp only [genPfxAux, hk]
      simp at hk
      simp [hk]

theorem dlookup_mem {d : NsDict} {k : String} {v : Option String}
    (h : dlookup d k = some v) : (k, v) ∈ d := by
  unfold dlookup at h
  cases hf : d.find? (fun kv => kv.1 == k) with
  | none => rw [hf] at h; exact Option.noConfusion h
  | some kv =>
    rw [hf] at h
    have hm := List.mem_of_find?_eq_some hf
    have hp := List.find?_some hf
    have hk : kv.1 = k := by simpa using hp
    have hv : kv.2 = v := by simpa using h
    have : kv = (k, v) := by
      cases kv
      simp_all
    rw [← this]
    exact hm

theorem dlookup_append_left {d : NsDict} {k : String} {v : Option String}
    (h : dlookup d k = some v) (rest : NsDict) :
    dlookup (d ++ rest) k = some v := by
  induction d with
  | nil => exact absurd h (by simp [dlookup])
  | cons kv t ih =>
    unfold dlookup at h ⊢
    rw [List.cons_append, List.find?_cons] at *
    by_cases hk : kv.1 == k
    · simp only [hk] at h ⊢
      exact h
    · rw [Bool.not_eq_true] at hk
      simp only [hk] at h ⊢
      exact ih h

theorem dlookup_append_new {d : NsDict} {k : String}
    (h : ¬ k ∈ dkeys d) (v : Option String) :
    dlookup (d ++ [(k, v)]) k = some v := by
  induction d with
  | nil => simp [dlookup]
  | cons kv t ih =>
    unfold dlookup
    rw [List.cons_append, List.find?_cons]
    have hk : ¬ kv.1 = k := by
      intro he
      exact h (by simp [dkeys, he])
    have hkb : (kv.1 == k) = false := by
      simpa using hk
    simp only [hkb]
    have ht : ¬ k ∈ dkeys t := fun hm => h (by simp [dkeys] at hm ⊢; right; exact hm)
    exact ih ht

theorem dinsert_new {d : NsDict} {k : String} (h : ¬ k ∈ dkeys d)
    (v : Option String) : dinsert d k v = d ++ [(k, v)] := by
  unfold dinsert
  have hany : d.any (fun kv => kv.1 == k) = false := by
    rw [List.any_eq_false]
    intro kv hkv
    simp only [beq_iff_eq]
    intro he
    apply h
    unfold dkeys
    exact List.mem_map.mpr ⟨kv, hkv, he⟩
  simp [hany]

/-- An identifier argument as accepted by the record constructors and the
add_* methods: a Python string or a PROVQname (Python None is modelled by
wrapping in Option at the use sites). -/
inductive PyId where
  | str (s : String)
  | qn (q : PQname)
deriving DecidableEq, Repr

/-- A record as seen by id generation and validation: its identifier (None
for an anonymous record) and its _idJSON scratch field, which is None until
an encode pass assigns it. -/
structure ERecord where
  identifier : Option PQname
  idJSON : Option String
deriving DecidableEq, Repr

/-- The per bundle state touched by id generation: the element and
relation lists and the two counters _elementkey and _relationkey.
Sub accounts are not modelled; the bundles in the theorems below have
none. -/
structure BundleSt where
  elements : List ERecord
  relations : List ERecord
  elementkey : Nat
  relationkey : Nat
deriving DecidableEq, Repr

/-- The Python comparison element._idJSON == identifier used by
Bundle._validate_id: both None is True, str against str compares contents,
and a str or None never equals a PROVQname. -/
def pyEqIdJSON (idj : Option String) : Option PyId → Bool
  | none => idj == none
  | some (.str s) => idj == some s
  | some (.qn _) => false

/-- Bundle._validate_id (core.py lines 814 to 823): an identifier is valid
unless it compares equal to the _idJSON field of some element or relation. -/
def validateId (st : BundleSt) (ident : Option PyId) : Bool :=
  !(st.elements.any (fun e => pyEqIdJSON e.idJSON ident) ||
    st.relations.any (fun r => pyEqIdJSON r.idJSON ident))

/-- Bundle._generate_elem_identifier (core.py lines 806 to 812): candidate
"_:ELEM" with the current counter, counter incremented before validation,
retry on conflict.  Fuel bounds the retries; the theorems never exhaust
it. -/
def genElemAux (st : BundleSt) : Nat → Nat → String × Nat
  | key, 0 => ("_:ELEM" ++ Nat.repr key, key + 1)
  | key, fuel + 1 =>
    let ident := "_:ELEM" ++ Nat.repr key
    if validateId st (some (.str ident)) then (ident, key + 1)
    else genElemAux st (key + 1) fuel

/-- Bundle._generate_rlat_identifier (core.py lines 798 to 804). -/
def genRlatAux (st : BundleSt) : Nat → Nat → String × Nat
  | key, 0 => ("_:RLAT" ++ Nat.repr key, key + 1)
  | key, fuel + 1 =>
    let ident := "_:RLAT" ++ Nat.repr key
    if validateId st (some (.str ident)) then (ident, key + 1)
    else genRlatAux st (key + 1) fuel

/-- The element loop of Bundle._generate_idJSON (core.py lines 768 to 773),
processing elements left to right: an anonymous element receives a
generated id from the element counter (which lives and persists on the
bundle), others receive their resolved qualified name.  The argument n is
the number of elements still to process. -/
def genIdElemsAux (ns : NsDict) : Nat → BundleSt → Except String BundleSt
  | 0, st => .ok st
  | n + 1, st =>
    let i := st.elements.length - (n + 1)
    match st.elements[i]? with
    | none => .ok st
    | some e =>
      match e.identifier with
      | none =>
        let pk := genElemAux st st.elementkey
          (st.elements.length + st.relations.length + 1)
        genIdElemsAux ns n
          { st with
            elements := st.elements.set i { e with idJSON := some pk.1 },
            elementkey := pk.2 }
      | some q =>
        match qnameFull q ns with
        | .error msg => .error msg
        | .ok v =>
          genIdElemsAux ns n
            { st with elements := st.elements.set i { e with idJSON := v } }

/-- The relation loop of Bundle._generate_idJSON (core.py lines 774 to
779). -/
def genIdRelsAux (ns : NsDict) : Nat → BundleSt → Except String BundleSt
  | 0, st => .ok st
  | n + 1, st =>
    let i := st.relations.length - (n + 1)
    match st.relations[i]? with
    | none => .ok st
    | some r =>
      match r.identifier with
      | none =>
        let pk := genRlatAux st st.relationkey
          (st.elements.length + st.relations.length + 1)
        genIdRelsAux ns n
          { st with
            relations := st.relations.set i { r with idJSON := some pk.1 },
            relationkey := pk.2 }
      | some q =>
        match qnameFull q ns with
        | .error msg => .error msg
        | .ok v =>
          genIdRelsAux ns n
            { st with relations := st.relations.set i { r with idJSON := v } }

/-- Bundle._generate_idJSON (core.py lines 766 to 783) for a bundle without
sub accounts: elements first, then relations.  The counters are fields of
the bundle and are not reset between calls. -/
def generateIdJSON (ns : NsDict) (st : BundleSt) : Except String BundleSt := do
  let st1 ← genIdElemsAux ns st.elements.length st
  genIdRelsAux ns st1.relations.length st1

/-- The identifier handling of Record.__init__ (core.py lines 127 to 135):
a string identifier is wrapped as PROVQname(identifier,
localname=identifier). -/
def recordInitIdent : PyId → PQname
  | .str s => ⟨s, none, none, some s⟩
  | .qn q => q

/-- Element.__init__ (core.py lines 220 to 229): an element with no
identifier is rejected at construction time. -/
def elementInit : Option PyId → Except String ERecord
  | none => .error "An element is always required to have an identifier"
  | some i => .ok ⟨some (recordInitIdent i), none⟩

/-- Bundle.add_entity (core.py lines 825 to 832): validate the identifier
against the _idJSON fields, construct the entity, and attach it (the
account argument of the scenario is None, so Bundle.add appends the fresh
record to the element list). -/
def addEntity (st : BundleSt) (ident : Option PyId) :
    Except String (BundleSt × ERecord) :=
  if validateId st ident = false then
    .error "Identifier conflicts with existing assertions"
  else
    match elementInit ident with
    | .error e => .error e
    | .ok r => .ok ({ st with elements := st.elements ++ [r] }, r)

/-- The shared body of the ten relation convenience methods
add_wasGeneratedBy ... (core.py lines 861 to 959), which differ only in the
relation constructor invoked in the None identifier branch.  When the
identifier is not None, the body only validates it and falls off the end of
the method, returning None without constructing or attaching anything;
when the identifier is None, a relation with identifier None is constructed
and attached (account argument None, so Bundle.add appends it). -/
def addRelationMethod (st : BundleSt) (ident : Option PyId) :
    Except String (BundleSt × Option ERecord) :=
  match ident with
  | some i =>
    if validateId st (some i) = false then
      .error "Identifier conflicts with existing assertions"
    else .ok (st, none)
  | none =>
    let rel : ERecord := ⟨none, none⟩
    .ok ({ st with relations := st.relations ++ [rel] }, some rel)

/-- The kind tag of a record for Bundle.add dispatch. -/
inductive RKind where
  | element
  | relation
  | account
deriving DecidableEq, Repr

/-- A record in the ownership model: its kind, its account back reference
and, for account records, the parentaccount back reference.  Back
references hold the index of the owning bundle (Python object identity). -/
structure RecSt where
  kind : RKind
  account : Option Nat
  parentaccount : Option Nat
deriving DecidableEq, Repr

/-- A bundle in the ownership model: its identifier name and its three
record lists holding record indices. -/
structure BSt where
  ident : String
  elems : List Nat
  rels : List Nat
  accs : List Nat
deriving DecidableEq, Repr

/-- A world of bundles and records, indexed by position (Python object
references). -/
structure World where
  bundles : List BSt
  recs : List RecSt
deriving DecidableEq, Repr

/-- Bundle.add (core.py lines 698 to 725).  Elements: fresh records are
appended and re-owned; records owned by a bundle with a different
identifier are delegated to that owner; records owned here are appended
only when absent from the element list.  Relations: same shape, except
that the source checks membership in the ELEMENT list before appending to
the relation list, so a relation already present is appended again.
Accounts: analogous over parentaccount, except that the delegation branch
calls add on record.account.  Fuel bounds the delegation recursion. -/
def bundleAdd (w : World) (selfIdx : Nat) (r : Nat) : Nat → Except String World
  | 0 => .ok w
  | fuel + 1 =>
    match w.recs[r]?, w.bundles[selfIdx]? with
    | some rc, some self =>
      match rc.kind with
      | .element =>
        match rc.account with
        | none =>
          .ok { w with
            bundles := w.bundles.set selfIdx { self with elems := self.elems ++ [r] },
            recs := w.recs.set r { rc with account := some selfIdx } }
        | some acc =>
          if ¬ ((w.bundles[acc]?).map BSt.ident = some self.ident) then
            bundleAdd w acc r fuel
          else if r ∈ self.elems then .ok w
          else .ok { w with
            bundles := w.bundles.set selfIdx { self with elems := self.elems ++ [r] } }
      | .relation =>
        match rc.account with
        | none =>
          .ok { w with
            bundles := w.bundles.set selfIdx { self with rels := self.rels ++ [r] },
            recs := w.recs.set r { rc with account := some selfIdx } }
        | some acc =>
          if ¬ ((w.bundles[acc]?).map BSt.ident = some self.ident) then
            bundleAdd w acc r fuel
          else if r ∈ self.elems then .ok w
          else .ok { w with
            bundles := w.bundles.set selfIdx { self with rels := self.rels ++ [r] } }
      | .account =>
        match rc.parentaccount with
        | none =>
          .ok { w with
            bundles := w.bundles.set selfIdx { self with accs := self.accs ++ [r] },
            recs := w.recs.set r { rc with parentaccount := some selfIdx } }
        | some pacc =>
          if ¬ ((w.bundles[pacc]?).map BSt.ident = some self.ident) then
            match rc.account with
            | some a => bundleAdd w a r fuel
            | none => .error "AttributeError: NoneType object has no attribute add"
          else if r ∈ self.accs then .ok w
          else .ok { w with
            bundles := w.bundles.set selfIdx { self with accs := self.accs ++ [r] } }
    | _, _ => .error "invalid reference"

theorem exceptBind_ok {α β : Type} {x : Except String α} {f : α → Except String β}
    {b : β} (h : x >>= f = .ok b) : ∃ a, x = .ok a ∧ f a = .ok b := by
  cases x with
  | error e =>
    rw [show ((Except.error e : Except String α) >>= f)
        = (Except.error e : Except String β) from rfl] at h
    exact Except.noConfusion h
  | ok a => exact ⟨a, rfl, h⟩

/-! The claim theorems. -/

/-- Concatenation of Python value lists. -/
def appendPVL : PyValueList → PyValueList → PyValueList
  | .nil, ys => ys
  | .cons x xs, ys => .cons x (appendPVL xs ys)

/-- Modelled from the spec: for an array with a nested array, the claim of
C7 says the array is encoded by flattening one level, with each inner value
encoded independently through the same value encoding rule. -/
def flattenOne : PyValueList → PyValueList
  | .nil => .nil
  | .cons (.PyList l) t => appendPVL l (flattenOne t)
  | .cons h t => .cons h (flattenOne t)

/-- Modelled from the spec: flatten one level, then encode every value. -/
def specFlattenEncode (ns : NsDict) (items : PyValueList) :
    Except String PyValue := do
  let enc ← convertList ns (flattenOne items)
  .ok (.PyList enc)

/-- The bundle of the id stability scenario: two elements with explicit
string identifiers and one anonymous relation, before any encode pass. -/
def stID : BundleSt :=
  ⟨[⟨some ⟨"e1", none, none, some "e1"⟩, none⟩,
    ⟨some ⟨"a1", none, none, some "a1"⟩, none⟩],
   [⟨none, none⟩], 0, 0⟩

/-- C1: the claim says that encoding an unmodified document twice yields the
same generated ids because all mutable encode state is freshly scoped per
encode call.  The code stores the counters on the bundle and never resets
them, so the anonymous relation of stID receives id _:RLAT0 on the first
id generation pass and _:RLAT1 on the second. -/
theorem claim_C1_second_encode_changes_ids :
    (generateIdJSON stdNs stID).map (fun s => s.relations.map ERecord.idJSON)
      = .ok [some "_:RLAT0"] ∧
    ((generateIdJSON stdNs stID).bind (generateIdJSON stdNs)).map
        (fun s => s.relations.map ERecord.idJSON)
      = .ok [some "_:RLAT1"] :=
  ⟨rfl, rfl⟩

/-- C2: the claim says a Graph with an Entity and an Activity without
explicit ids encodes to _:ELEM0 and _:ELEM1.  The code rejects any element
constructed without an identifier, so the scenario cannot even be built:
add_entity with identifier None raises PROVGraph_Error at construction
time. -/
theorem claim_C2_anonymous_entity_rejected :
    addEntity ⟨[], [], 0, 0⟩ none =
      .error "An element is always required to have an identifier" :=
  rfl

/-- C3: the claim says strings and booleans are emitted as-is and untyped.
Strings, integers and floats behave as claimed, but a boolean passes the
isinstance int check of _get_type_JSON (bool is a subclass of int in
Python), so True is emitted as the typed pair with tag xsd:integer, not
as-is. -/
theorem claim_C3_bool_tagged_as_integer :
    convertValue stdNs (.PyBool true)
        = .ok (.PyList (.cons (.PyStr "True") (.cons (.PyStr "xsd:integer") .nil))) ∧
    convertValue stdNs (.PyBool true) ≠ .ok (.PyBool true) ∧
    (∀ s, convertValue stdNs (.PyStr s) = .ok (.PyStr s)) ∧
    convertValue stdNs (.PyInt 7)
        = .ok (.PyList (.cons (.PyStr "7") (.cons (.PyStr "xsd:integer") .nil))) ∧
    convertValue stdNs (.PyFloat "3.5")
        = .ok (.PyList (.cons (.PyStr "3.5") (.cons (.PyStr "xsd:float") .nil))) :=
  ⟨rfl, by
    intro hcontra
    rw [show convertValue stdNs (.PyBool true)
        = .ok (.PyList (.cons (.PyStr "True") (.cons (.PyStr "xsd:integer") .nil)))
      from rfl] at hcontra
    exact absurd (Except.ok.inj hcontra) (by decide),
   fun s => rfl, rfl, rfl⟩

/-- C4 counterexample: the claim states that whenever some table entry
maps a non default key p to the namespace uri of q, the result is
p:local_part.  With two entries a and b mapping to the same uri the loop
lets the later entry overwrite the earlier one, so the result is b:x,
contradicting the claim instantiated at p = a. -/
theorem claim_C4_counterexample :
    (("a", some "http://aaa/") ∈
      ([("a", some "http://aaa/"), ("b", some "http://aaa/")] : NsDict)) ∧
    (⟨"http://aaa/x", none, some "http://aaa/", some "x"⟩ : PQname).namespacename
        = some "http://aaa/" ∧
    "a" ≠ "default" ∧
    qnameFull ⟨"http://aaa/x", none, some "http://aaa/", some "x"⟩
        [("a", some "http://aaa/"), ("b", some "http://aaa/")]
      = .ok (some "b:x") ∧
    ("b:x" : String) ≠ "a:x" :=
  ⟨by decide, rfl, by decide, rfl, by decide⟩

/-- C4 amended: for a qualified name with a non null local part, the table
hit that determines the result is the LAST entry in table iteration order
whose value equals the namespace uri (the loop overwrites earlier hits);
with that entry the claimed rule holds: local_part for the default key,
key:local_part otherwise; when no entry matches, a preferred short form
wins over the raw uri, exactly as claimed. -/
theorem claim_C4_resolution_amended (q : PQname) (T : NsDict) (l : String)
    (h : q.localname = some l) :
    match lastMatch q T with
    | some kv =>
        qnameFull q T = .ok (some (if kv.1 = "default" then l else kv.1 ++ ":" ++ l))
    | none =>
        match q.pfx with
        | some pp => qnameFull q T = .ok (some (pp ++ ":" ++ l))
        | none => qnameFull q T = .ok (some q.name) := by
  unfold qnameFull
  rw [qnameLoop_eq_lastMatch q l h, any_eq_lastMatch_isSome]
  cases hl : lastMatch q T with
  | some kv => simp [apply_ite some]
  | none =>
    cases hp : q.pfx with
    | some pp => simp [h]
    | none => simp

/-- Witness for C4 amended at a concrete input. -/
theorem claim_C4_resolution_amended_witness :
    qnameFull ⟨"http://aaa/x", none, some "http://aaa/", some "x"⟩
        [("a", some "http://aaa/"), ("b", some "http://aaa/")]
      = .ok (some "b:x") :=
  claim_C4_resolution_amended
    ⟨"http://aaa/x", none, some "http://aaa/", some "x"⟩
    [("a", some "http://aaa/"), ("b", some "http://aaa/")] "x" rfl

/-- C5: when a discovered qualified name carries a short form already bound
to a different uri, and the incoming uri is not the value bound to
"default", the existing binding is untouched and the incoming uri is bound
under the synthetic short form nsN with N the smallest integer suffix not
already in use among the table keys.  The counter invariant hinv holds
throughout a construction because the counter starts at zero and every
suffix it passes is in the table; hfree states that a free suffix exists
within the search fuel, which is always true since suffixes of entries are
finitely many. -/
theorem claim_C5_conflict_mints_smallest_fresh
    (st : NsSt) (q : PQname) (p u : String) (v d : Option String)
    (hp : q.pfx = some p)
    (hu : q.namespacename = some u)
    (hv : dlookup st.nsdict p = some v)
    (hne : ¬ (some u : Option String) = v)
    (hd : dlookup st.nsdict "default" = some d)
    (hdne : ¬ d = some u)
    (hinv : ∀ n, n < st.autoNsKey → nsStr n ∈ dkeys st.nsdict)
    (hfree : ∃ n, n < st.autoNsKey + (st.nsdict.length + 1) ∧
      ¬ nsStr n ∈ dkeys st.nsdict) :
    ∃ N st',
      mergeQname st q = .ok st' ∧
      st'.nsdict = st.nsdict ++ [(nsStr N, some u)] ∧
      dlookup st'.nsdict p = some v ∧
      ¬ nsStr N ∈ dkeys st.nsdict ∧
      (∀ m, ¬ nsStr m ∈ dkeys st.nsdict → N ≤ m) := by
  obtain ⟨n, hnlt, hnfree⟩ := hfree
  have hkn : st.autoNsKey ≤ n := by
    by_contra hcon
    exact hnfree (hinv n (by omega))
  obtain ⟨N, hres, hNge, hNfree, hmin⟩ :=
    genPfxAux_spec (dkeys st.nsdict) (st.nsdict.length + 1) st.autoNsKey
      ⟨n - st.autoNsKey, by omega, by
        have he : st.autoNsKey + (n - st.autoNsKey) = n := by omega
        rw [he]
        simpa using hnfree⟩
  have hNnotmem : ¬ nsStr N ∈ dkeys st.nsdict := by
    simpa using hNfree
  refine ⟨N, ⟨dinsert st.nsdict (nsStr N) (some u), N + 1⟩, ?_, ?_, ?_, hNnotmem, ?_⟩
  · unfold mergeQname
    rw [hp]
    dsimp only
    rw [hv]
    dsimp only
    rw [hu, if_neg hne, hd]
    dsimp only
    rw [if_neg hdne, hres]
  · exact dinsert_new hNnotmem (some u)
  · show dlookup (dinsert st.nsdict (nsStr N) (some u)) p = some v
    rw [dinsert_new hNnotmem (some u)]
    exact dlookup_append_left hv _
  · intro m hm
    by_contra hcon
    have hmlt : m < N := by omega
    by_cases hmk : m < st.autoNsKey
    · exact hm (hinv m hmk)
    · have := hmin m (by omega) hmlt
      exact hm (by simpa using this)

/-- Witness for C5 at a concrete state: key "ex" is bound to http://a/, the
incoming qualified name prefers "ex" for http://b/, "ns0" is already taken,
so the fresh suffix is 1. -/
theorem claim_C5_conflict_mints_smallest_fresh_witness :
    ∃ N st',
      mergeQname
          ⟨[("default", some "http://d/"), ("ex", some "http://a/"),
            ("ns0", some "http://z/")], 0⟩
          ⟨"http://b/x", some "ex", some "http://b/", some "x"⟩
        = .ok st' ∧
      st'.nsdict = [("default", some "http://d/"), ("ex", some "http://a/"),
        ("ns0", some "http://z/")] ++ [(nsStr N, some "http://b/")] ∧
      dlookup st'.nsdict "ex" = some (some "http://a/") ∧
      ¬ nsStr N ∈ dkeys [("default", some "http://d/"), ("ex", some "http://a/"),
        ("ns0", some "http://z/")] ∧
      (∀ m, ¬ nsStr m ∈ dkeys [("default", some "http://d/"),
        ("ex", some "http://a/"), ("ns0", some "http://z/")] → N ≤ m) :=
  claim_C5_conflict_mints_smallest_fresh
    ⟨[("default", some "http://d/"), ("ex", some "http://a/"),
      ("ns0", some "http://z/")], 0⟩
    ⟨"http://b/x", some "ex", some "http://b/", some "x"⟩
    "ex" "http://b/" (some "http://a/") (some "http://d/")
    rfl rfl rfl (by decide) rfl (by decide)
    (fun n hn => absurd hn (Nat.not_lt_zero n))
    ⟨1, by decide, by decide⟩

/-- C6: the claim says attaching a record already in its owners list never
appends it a second time.  The relation branch of Bundle.add tests
membership in the ELEMENT list before appending to the relation list, so
adding an owned relation to its own bundle a second time duplicates it. -/
theorem claim_C6_owned_relation_duplicated :
    ((bundleAdd ⟨[⟨"default", [], [], []⟩], [⟨.relation, none, none⟩]⟩ 0 0 2).bind
        (fun w1 => bundleAdd w1 0 0 2)).map (fun w => w.bundles.map BSt.rels)
      = .ok [[0, 0]] :=
  rfl

/-- C7 counterexample: on the nested array [[1]] the code returns the value
unchanged, with the raw inner integer, while the claim says each inner
value is encoded through the value encoding rule, which would turn 1 into
the typed pair. -/
theorem claim_C7_counterexample :
    convertValue stdNs (.PyList (.cons (.PyList (.cons (.PyInt 1) .nil)) .nil))
      = .ok (.PyList (.cons (.PyList (.cons (.PyInt 1) .nil)) .nil)) ∧
    specFlattenEncode stdNs (.cons (.PyList (.cons (.PyInt 1) .nil)) .nil)
      = .ok (.PyList (.cons
          (.PyList (.cons (.PyStr "1") (.cons (.PyStr "xsd:integer") .nil))) .nil)) ∧
    (.PyList (.cons (.PyList (.cons (.PyInt 1) .nil)) .nil) : PyValue)
      ≠ .PyList (.cons
          (.PyList (.cons (.PyStr "1") (.cons (.PyStr "xsd:integer") .nil))) .nil) :=
  ⟨rfl, rfl, by decide⟩

/-- C7 amended: an array whose elements are all non arrays encodes to the
converted elements wrapped with the prov:array tag; an array with a nested
array is returned unchanged, no flattening and no encoding of its values
(the conversions of the elements are still computed first, so a conversion
error still propagates). -/
theorem claim_C7_array_encoding_amended :
    (∀ (ns : NsDict) (items : PyValueList), hasListElem items = true →
      (∃ msg, convertValue ns (.PyList items) = .error msg) ∨
        convertValue ns (.PyList items) = .ok (.PyList items)) ∧
    (∀ (items enc : PyValueList), hasListElem items = false →
      convertList stdNs items = .ok enc →
      convertValue stdNs (.PyList items)
        = .ok (.PyList (.cons (.PyList enc) (.cons (.PyStr "prov:array") .nil)))) := by
  constructor
  · intro ns items h
    have heq : convertValue ns (.PyList items) =
        (convertList ns items).bind (fun newvalue =>
          if hasListElem items then Except.ok (.PyList items)
          else (qnameFull (provQ "array") ns).bind (fun qn =>
            Except.ok (.PyList (.cons (.PyList newvalue) (.cons (optToPy qn) .nil))))) :=
      rfl
    cases hc : convertList ns items with
    | error msg =>
      refine Or.inl ⟨msg, ?_⟩
      rw [heq, hc]
      rfl
    | ok l =>
      refine Or.inr ?_
      rw [heq, hc]
      simp only [Except.bind]
      rw [h]
      simp
  · intro items enc h hc
    have heq : convertValue stdNs (.PyList items) =
        (convertList stdNs items).bind (fun newvalue =>
          if hasListElem items then Except.ok (.PyList items)
          else (qnameFull (provQ "array") stdNs).bind (fun qn =>
            Except.ok (.PyList (.cons (.PyList newvalue) (.cons (optToPy qn) .nil))))) :=
      rfl
    rw [heq, hc]
    simp only [Except.bind]
    rw [h]
    have hq : qnameFull (provQ "array") stdNs = .ok (some "prov:array") := rfl
    rw [if_neg (by simp)]
    rw [hq]
    rfl

/-- Witness for C7 amended: the nested case on [[1]] and the flat case on
[1, 2]. -/
theorem claim_C7_array_encoding_amended_witness :
    ((∃ msg, convertValue stdNs
        (.PyList (.cons (.PyList (.cons (.PyInt 1) .nil)) .nil)) = .error msg) ∨
      convertValue stdNs (.PyList (.cons (.PyList (.cons (.PyInt 1) .nil)) .nil))
        = .ok (.PyList (.cons (.PyList (.cons (.PyInt 1) .nil)) .nil))) ∧
    convertValue stdNs (.PyList (.cons (.PyInt 1) (.cons (.PyInt 2) .nil)))
      = .ok (.PyList (.cons (.PyList
          (.cons (.PyList (.cons (.PyStr "1") (.cons (.PyStr "xsd:integer") .nil)))
            (.cons (.PyList (.cons (.PyStr "2") (.cons (.PyStr "xsd:integer") .nil)))
              .nil)))
          (.cons (.PyStr "prov:array") .nil))) :=
  ⟨claim_C7_array_encoding_amended.1 stdNs
      (.cons (.PyList (.cons (.PyInt 1) .nil)) .nil) rfl,
   claim_C7_array_encoding_amended.2
      (.cons (.PyInt 1) (.cons (.PyInt 2) .nil))
      (.cons (.PyList (.cons (.PyStr "1") (.cons (.PyStr "xsd:integer") .nil)))
        (.cons (.PyList (.cons (.PyStr "2") (.cons (.PyStr "xsd:integer") .nil)))
          .nil))
      rfl rfl⟩

/-- C8: after _create_nsdict completes for a document whose default
namespace is U, no key other than "default" maps to U: the final filter
deletes every such entry, whatever the merge walk produced. -/
theorem claim_C8_default_namespace_elision
    (doc : Document) (U : String) (hU : doc.defaultnamespace = some U)
    (tbl : NsDict) (htbl : createNsdict doc = .ok tbl) :
    ∀ p, ¬ p = "default" → ¬ dlookup tbl p = some (some U) := by
  intro p hp hlook
  simp only [createNsdict] at htbl
  obtain ⟨st, hst, hfst⟩ := exceptBind_ok htbl
  have htbl' : st.nsdict.filter
      (fun kv => !(kv.2 == doc.defaultnamespace && !(kv.1 == "default"))) = tbl :=
    Except.ok.inj hfst
  rw [← htbl'] at hlook
  have hmem := dlookup_mem hlook
  have hpred := List.of_mem_filter hmem
  rw [hU] at hpred
  simp only [beq_iff_eq] at hpred
  simp [hp] at hpred

/-- Witness for C8: a document with default namespace http://d/ and one
qualified name preferring "ex" for that same uri; the merge binds ex to
http://d/ and the filter then removes it. -/
theorem claim_C8_default_namespace_elision_witness :
    ¬ dlookup [("default", some "http://d/"), ("prov", some provURI),
        ("xsd", some xsdURI)] "ex" = some (some "http://d/") :=
  claim_C8_default_namespace_elision
    ⟨some "http://d/", [], [⟨"http://d/e", some "ex", some "http://d/", some "e"⟩]⟩
    "http://d/" rfl
    [("default", some "http://d/"), ("prov", some provURI), ("xsd", some xsdURI)]
    rfl "ex" (by decide)

/-- C9: the claim says a colliding explicit id raises
DuplicateIdentifierError at construction time and leaves the graph
unchanged.  Bundle._validate_id compares the new identifier against the
_idJSON scratch fields, which are all still None before any encode, so
adding two entities with the same explicit id "e1" raises nothing and
attaches both. -/
theorem claim_C9_duplicate_id_not_rejected :
    (do
      let a ← addEntity ⟨[], [], 0, 0⟩ (some (.str "e1"))
      let b ← addEntity a.1 (some (.str "e1"))
      pure (b.1.elements.map ERecord.identifier))
      = .ok [some ⟨"e1", none, none, some "e1"⟩,
             some ⟨"e1", none, none, some "e1"⟩] :=
  rfl

/-- C10: in every relation convenience method, a non null identifier that
passes validation only falls off the end of the method: no relation is
constructed, the bundle is unchanged and None is returned; only a null
identifier constructs and attaches a relation. -/
theorem claim_C10_nonnull_id_creates_nothing :
    (∀ (st : BundleSt) (i : PyId), validateId st (some i) = true →
      addRelationMethod st (some i) = .ok (st, none)) ∧
    (∀ st : BundleSt, addRelationMethod st none =
      .ok ({ st with relations := st.relations ++ [⟨none, none⟩] },
        some ⟨none, none⟩)) := by
  constructor
  · intro st i h
    unfold addRelationMethod
    dsimp only
    rw [h]
    simp
  · intro st
    rfl

/-- Witness for C10 on the empty bundle. -/
theorem claim_C10_nonnull_id_creates_nothing_witness :
    addRelationMethod ⟨[], [], 0, 0⟩ (some (.str "r1")) = .ok (⟨[], [], 0, 0⟩, none) ∧
    addRelationMethod ⟨[], [], 0, 0⟩ none =
      .ok (⟨[], [⟨none, none⟩], 0, 0⟩, some ⟨none, none⟩) :=
  ⟨claim_C10_nonnull_id_creates_nothing.1 ⟨[], [], 0, 0⟩ (.str "r1") rfl,
   claim_C10_nonnull_id_creates_nothing.2 ⟨[], [], 0, 0⟩⟩

end Prov
